import Mathlib

/-!
Verification of the RouteMQ background job-queue subsystem.

Shallow embedding of the queue drivers (`core/queue/redis_queue.py`,
`core/queue/database_queue.py`), the job serialization envelope
(`core/job.py`) and the worker retry loop (`core/queue/queue_worker.py`).

Modelling conventions:
* wall-clock time (`time.time()` / `datetime.utcnow()`) is an explicit
  `now : Nat` argument;
* the JSON entry record `{id, payload, attempts}` stored in Redis is the
  structure `RJob`; two entries are equal exactly when their JSON texts
  are equal (`json.dumps` is deterministic on these fixed-shape dicts);
* Redis lists are Lean lists with the head at the list's left end, so
  `RPUSH` appends, `LPUSH` prepends, `RPOPLPUSH` takes the last element
  of the source and prepends it to the destination, and `LREM key 1 v`
  removes the first occurrence of `v` scanning from the head;
* the delayed sorted set is a list of `(entry, score)` pairs in insertion
  order; `ZRANGEBYSCORE -inf now` returns the due members ordered by
  score (stable insertion sort on the score);
* payloads are opaque to the drivers, so the driver state is polymorphic
  in the payload type `α`;
* `enabled : Bool` stands for `redis.is_enabled()` / `Model._is_enabled`;
* a Python function that raises is embedded as `Except String`, one that
  cannot raise (it catches internally) as a total function.
-/

namespace RouteMQ

/-- Redis queue entry, the JSON record `{"id": ..., "payload": ..., "attempts": ...}`
built in `RedisQueue.push`. -/
structure RJob (α : Type) where
  id : String
  payload : α
  attempts : Nat
deriving DecidableEq, Repr

/-- State of one Redis queue: the ready list (`routemq:queue:{q}`), the
delayed sorted set (`routemq:queue:{q}:delayed`, member with score) and the
reserved list (`routemq:queue:{q}:reserved`). -/
structure RedisState (α : Type) where
  ready : List (RJob α)
  delayed : List (RJob α × Nat)
  reserved : List (RJob α)
deriving DecidableEq, Repr

/-- Stable insertion of an element into a score-sorted list (helper for the
order in which `ZRANGEBYSCORE` returns due members). -/
def insertByScore {α : Type} (p : RJob α × Nat) : List (RJob α × Nat) → List (RJob α × Nat)
  | [] => [p]
  | q :: qs => if q.2 ≤ p.2 then q :: insertByScore p qs else p :: q :: qs

/-- Stable sort by score (ascending), the order of `ZRANGEBYSCORE -inf now`. -/
def sortByScore {α : Type} : List (RJob α × Nat) → List (RJob α × Nat)
  | [] => []
  | p :: ps => insertByScore p (sortByScore ps)

/-- Removal of the first occurrence of an element scanning from the head,
the effect of `LREM key 1 value`. -/
def lrem1 {α : Type} [DecidableEq α] : List (RJob α) → RJob α → List (RJob α)
  | [], _ => []
  | x :: xs, j => if x = j then xs else x :: lrem1 xs j

/-- First reserved entry whose `id` matches, the scan loop in
`RedisQueue.release` / `RedisQueue.delete`. -/
def findById {α : Type} : List (RJob α) → String → Option (RJob α)
  | [], _ => none
  | x :: xs, i => if x.id = i then some x else findById xs i

/-- `RedisQueue.push`: raises when Redis is disabled; with `delay > 0` the
entry (attempts = 0) is `ZADD`ed to the delayed set with score `now + delay`,
otherwise it is `RPUSH`ed onto the ready list. `id` stands for the
clock-derived unique id string. -/
def redisPush {α : Type} (enabled : Bool) (st : RedisState α)
    (id : String) (payload : α) (delay : Nat) (now : Nat) :
    Except String (RedisState α) :=
  if !enabled then
    .error "Redis is disabled. Enable it to use RedisQueue."
  else
    let j : RJob α := ⟨id, payload, 0⟩
    if delay > 0 then
      .ok { st with delayed := st.delayed ++ [(j, now + delay)] }
    else
      .ok { st with ready := st.ready ++ [j] }

/-- `RedisQueue._migrate_delayed_jobs`: moves every delayed member whose
score has passed (`ZRANGEBYSCORE -inf now`, ascending score) to the tail of
the ready list (`RPUSH`) and removes it from the delayed set (`ZREM`). -/
def redisMigrate {α : Type} (enabled : Bool) (st : RedisState α) (now : Nat) :
    RedisState α :=
  if !enabled then st
  else
    let due := sortByScore (st.delayed.filter (fun p => decide (p.2 ≤ now)))
    { st with
      ready := st.ready ++ due.map Prod.fst
      delayed := st.delayed.filter (fun p => decide (¬ p.2 ≤ now)) }

/-- `RedisQueue.pop`: returns `none` when Redis is disabled; otherwise
migrates due delayed jobs, then `RPOPLPUSH`es the ready list's tail onto the
head of the reserved list, increments the attempts counter inside the moved
record, rewrites the reserved copy (`LREM` of the old text, `RPUSH` of the
updated text) and returns the updated record. Exceptions are caught and
reported as `none`, so the function is total. -/
def redisPop {α : Type} [DecidableEq α] (enabled : Bool) (st : RedisState α)
    (now : Nat) : RedisState α × Option (RJob α) :=
  if !enabled then (st, none)
  else
    let st1 := redisMigrate enabled st now
    match st1.ready.getLast? with
    | none => (st1, none)
    | some j =>
      let j' : RJob α := { j with attempts := j.attempts + 1 }
      ({ st1 with
          ready := st1.ready.dropLast
          reserved := lrem1 (j :: st1.reserved) j ++ [j'] }, some j')

/-- `RedisQueue.release`: returns silently when Redis is disabled; otherwise
scans the reserved list for the first entry with the given id, removes it
(`LREM 1`) and re-inserts the unchanged record into the delayed set (score
`now + delay`) when `delay > 0`, else onto the tail of the ready list. A
missing id is a no-op. -/
def redisRelease {α : Type} [DecidableEq α] (enabled : Bool) (st : RedisState α)
    (jobId : String) (delay : Nat) (now : Nat) : RedisState α :=
  if !enabled then st
  else
    match findById st.reserved jobId with
    | none => st
    | some j =>
      if delay > 0 then
        { st with reserved := lrem1 st.reserved j
                  delayed := st.delayed ++ [(j, now + delay)] }
      else
        { st with reserved := lrem1 st.reserved j
                  ready := st.ready ++ [j] }

/-- `RedisQueue.delete`: returns silently when Redis is disabled; otherwise
removes the first reserved entry with the given id; a missing id is a
no-op. -/
def redisDelete {α : Type} [DecidableEq α] (enabled : Bool) (st : RedisState α)
    (jobId : String) : RedisState α :=
  if !enabled then st
  else
    match findById st.reserved jobId with
    | none => st
    | some j => { st with reserved := lrem1 st.reserved j }

/-- `RedisQueue.size`: `0` when Redis is disabled, otherwise
`LLEN ready + ZCARD delayed`; the reserved list is not counted. -/
def redisSize {α : Type} (enabled : Bool) (st : RedisState α) : Nat :=
  if !enabled then 0 else st.ready.length + st.delayed.length

/-- Row of the `queue_jobs` table (`app/models/queue_job.py`):
`id PK, queue, payload, attempts, reserved_at nullable, available_at`.
`created_at` is never read by the driver and is omitted. -/
structure DRow (α : Type) where
  id : Nat
  queue : String
  payload : α
  attempts : Nat
  reserved_at : Option Nat
  available_at : Nat
deriving DecidableEq, Repr

/-- Row of the `queue_failed_jobs` table
(`app/models/queue_failed_job.py`). -/
structure FailedRec (α : Type) where
  connection : String
  queue : String
  payload : α
  exc : String
  failed_at : Nat
deriving DecidableEq, Repr

/-- Eligibility filter of `DatabaseQueue.pop`'s SELECT:
`queue == q AND reserved_at IS NULL AND available_at <= now`. -/
def isReady {α : Type} (q : String) (now : Nat) (r : DRow α) : Bool :=
  decide (r.queue = q ∧ r.reserved_at = none ∧ r.available_at ≤ now)

/-- Row with the smallest primary key among a candidate list
(`ORDER BY id LIMIT 1`). -/
def pickMin {α : Type} : List (DRow α) → Option (DRow α)
  | [] => none
  | r :: rs =>
    match pickMin rs with
    | none => some r
    | some m => if r.id ≤ m.id then some r else some m

/-- `DatabaseQueue.push`: raises when MySQL is disabled; otherwise inserts a
row with `attempts = 0`, `reserved_at = NULL` and
`available_at = now + delay` (`utcnow()` plus the delay when positive).
`newId` stands for the auto-increment primary key. -/
def dbPush {α : Type} (enabled : Bool) (rows : List (DRow α)) (newId : Nat)
    (payload : α) (q : String) (delay : Nat) (now : Nat) :
    Except String (List (DRow α)) :=
  if !enabled then
    .error "MySQL is disabled. Enable it to use DatabaseQueue."
  else
    .ok (rows ++ [⟨newId, q, payload, 0, none, now + delay⟩])

/-- `DatabaseQueue.pop`: returns `none` when MySQL is disabled; otherwise
selects the smallest-id row matching `isReady` under
`FOR UPDATE SKIP LOCKED`, sets `reserved_at = now`, increments `attempts`,
commits, and returns `{id, payload, attempts}`. Exceptions are caught
(after rollback) and reported as `none`, so the function is total; the
transaction is one atomic step with respect to other poppers. -/
def dbPop {α : Type} (enabled : Bool) (rows : List (DRow α)) (q : String)
    (now : Nat) : List (DRow α) × Option (Nat × α × Nat) :=
  if !enabled then (rows, none)
  else
    match pickMin ((rows.filter (isReady q now))) with
    | none => (rows, none)
    | some job =>
      (rows.map (fun r =>
          if r.id = job.id then
            { r with reserved_at := some now, attempts := r.attempts + 1 }
          else r),
       some (job.id, job.payload, job.attempts + 1))

/-- `DatabaseQueue.release`: returns silently when MySQL is disabled;
otherwise `UPDATE queue_jobs SET reserved_at = NULL,
available_at = now + delay WHERE id = jobId AND queue = q` (the code sets
`available_at = utcnow()` and adds the delay when positive, i.e.
`now + delay` for every `delay`). -/
def dbRelease {α : Type} (enabled : Bool) (rows : List (DRow α)) (jobId : Nat)
    (q : String) (delay : Nat) (now : Nat) : List (DRow α) :=
  if !enabled then rows
  else
    rows.map (fun r =>
      if r.id = jobId ∧ r.queue = q then
        { r with reserved_at := none, available_at := now + delay }
      else r)

/-- `DatabaseQueue.delete`: returns silently when MySQL is disabled;
otherwise `DELETE FROM queue_jobs WHERE id = jobId AND queue = q`. -/
def dbDelete {α : Type} (enabled : Bool) (rows : List (DRow α)) (jobId : Nat)
    (q : String) : List (DRow α) :=
  if !enabled then rows
  else rows.filter (fun r => decide (¬ (r.id = jobId ∧ r.queue = q)))

/-- `DatabaseQueue.failed`: returns silently when MySQL is disabled;
otherwise inserts one row into `queue_failed_jobs`. -/
def dbFailed {α : Type} (enabled : Bool) (fs : List (FailedRec α))
    (connection : String) (q : String) (payload : α) (exc : String)
    (now : Nat) : List (FailedRec α) :=
  if !enabled then fs else fs ++ [⟨connection, q, payload, exc, now⟩]

/-- `DatabaseQueue.size`: `0` when MySQL is disabled, otherwise the number
of rows with matching queue and `reserved_at IS NULL` (no `available_at`
filter). -/
def dbSize {α : Type} (enabled : Bool) (rows : List (DRow α)) (q : String) :
    Nat :=
  if !enabled then 0
  else (rows.filter (fun r => decide (r.queue = q ∧ r.reserved_at = none))).length

/-- JSON-compatible value stored in a job's `data` mapping. -/
inductive JVal where
  | s (v : String)
  | n (v : Int)
  | b (v : Bool)
  | null
deriving DecidableEq, Repr

/-- In-memory job (`core/job.py`): class identity, the `get_data()` mapping
(instance attributes other than the metadata fields), and the four policy
fields with class-level defaults 3, 60, 0, `"default"`. -/
structure MJob where
  klass : String
  data : List (String × JVal)
  max_tries : Nat
  timeout : Nat
  retry_after : Nat
  queue : String
deriving DecidableEq, Repr

/-- Serialization envelope written by `Job.serialize` / read by
`Job.unserialize`: the JSON dict
`{"class": ..., "data": ..., "max_tries": ..., "timeout": ...,
"retry_after": ..., "queue": ...}`, with each policy field optional on the
read side (`dict.get` with a default). The JSON text is modelled by its
parsed dict. -/
structure Envelope where
  klass : String
  data : List (String × JVal)
  max_tries : Option Nat
  timeout : Option Nat
  retry_after : Option Nat
  queue : Option String
deriving DecidableEq, Repr

/-- `Job.serialize`: writes the class identity, the `get_data()` mapping and
all four policy fields. -/
def serialize (j : MJob) : Envelope :=
  ⟨j.klass, j.data, some j.max_tries, some j.timeout, some j.retry_after,
   some j.queue⟩

/-- `Job.unserialize`: instantiates the class, restores the policy fields
with `job_data.get("max_tries", 3)`, `.get("timeout", 60)`,
`.get("retry_after", 0)`, `.get("queue", "default")`, then `setattr`s every
key of `data`. -/
def unserialize (e : Envelope) : MJob :=
  ⟨e.klass, e.data, e.max_tries.getD 3, e.timeout.getD 60,
   e.retry_after.getD 0, e.queue.getD "default"⟩

/-- Outcome of one handler execution inside `QueueWorker._process_job`:
normal return, a raised exception with its message, or an
`asyncio.TimeoutError` from `wait_for`. -/
inductive HandlerOutcome where
  | ok
  | raised (msg : String)
  | timedOut
deriving DecidableEq, Repr

/-- Failure text recorded by `QueueWorker._fail_job`
(`f"{cls}: {msg}"`; the appended traceback is opaque and omitted). The
timeout branch re-raises `Exception("Job timed out after ... seconds")`. -/
def excString : HandlerOutcome → String
  | .ok => ""
  | .raised m => "Exception: " ++ m
  | .timedOut => "Exception: Job timed out"

/-- Worker attempt ceiling, `self.max_tries or job.max_tries`: the worker
override applies only when set and truthy (non-zero). -/
def effectiveMaxTries (workerMaxTries : Option Nat) (jobMaxTries : Nat) : Nat :=
  match workerMaxTries with
  | none => jobMaxTries
  | some w => if w = 0 then jobMaxTries else w

/-- Deadline passed to `asyncio.wait_for`, `job.timeout or self.timeout`:
the job's own timeout when truthy (non-zero), else the worker's. -/
def workerDeadline (workerTimeout : Nat) (job : MJob) : Nat :=
  if job.timeout = 0 then workerTimeout else job.timeout

/-- Execution of a handler of the given duration under a deadline
(`asyncio.wait_for`): exceeding the deadline yields `timedOut`, otherwise
the handler's own outcome (`none` = returned, `some m` = raised `m`). -/
def runHandler (duration : Nat) (deadline : Nat) (failure : Option String) :
    HandlerOutcome :=
  if duration > deadline then .timedOut
  else
    match failure with
    | none => .ok
    | some m => .raised m

/-- Driver call issued by `QueueWorker._process_job` /
`QueueWorker._fail_job` after one execution. -/
inductive WAction where
  | delete
  | release (delay : Nat)
  | storeFailed (payload : Envelope) (exc : String)
deriving DecidableEq, Repr

/-- Driver calls made by `QueueWorker._process_job` for a deserializable
payload: entries whose `attempts` already exceed the ceiling are failed and
deleted without execution; a successful handler leads to `delete`; a failed
handler leads to `release(retry_after)` while `attempts < max_tries`, else
to one `failed` record (payload re-serialized) followed by `delete`. -/
def processJob (workerMaxTries : Option Nat) (attempts : Nat) (job : MJob)
    (outcome : HandlerOutcome) : List WAction :=
  let mt := effectiveMaxTries workerMaxTries job.max_tries
  if attempts > mt then
    [.storeFailed (serialize job) "Exception: Max tries exceeded", .delete]
  else
    match outcome with
    | .ok => [.delete]
    | o =>
      if attempts < mt then [.release job.retry_after]
      else [.storeFailed (serialize job) (excString o), .delete]

/-- Live rows plus the failed-job table of the relational backend, the
state a worker cycle acts on. -/
structure DBState (α : Type) where
  rows : List (DRow α)
  failedRows : List (FailedRec α)
deriving DecidableEq, Repr

/-- Application of one worker-issued driver call to the database state
(`failed` records use connection name `"database"`). -/
def applyAction (st : DBState Envelope) (q : String) (jobId : Nat)
    (now : Nat) : WAction → DBState Envelope
  | .delete => { st with rows := dbDelete true st.rows jobId q }
  | .release d => { st with rows := dbRelease true st.rows jobId q d now }
  | .storeFailed p e =>
    { st with failedRows := dbFailed true st.failedRows "database" q p e now }

/-- One iteration of `QueueWorker.work` against the relational driver: pop;
if a job arrives, unserialize its payload, run the handler (duration and
intrinsic failure given), and apply the resulting driver calls. -/
def runWorkerCycle (workerMaxTries : Option Nat) (workerTimeout : Nat)
    (st : DBState Envelope) (q : String) (now : Nat) (duration : Nat)
    (failure : Option String) : DBState Envelope :=
  match dbPop true st.rows q now with
  | (rows', none) => { st with rows := rows' }
  | (rows', some (jid, p, att)) =>
    let job := unserialize p
    let outcome := runHandler duration (workerDeadline workerTimeout job) failure
    (processJob workerMaxTries att job outcome).foldl
      (fun s a => applyAction s q jid now a) { st with rows := rows' }

/-- Program counter of one `RedisQueue.pop` caller, split at the boundaries
of the Redis commands that touch shared state: `start` = about to run the
migration read and the atomic `RPOPLPUSH`; `cleanup j` = claimed entry `j`
and about to rewrite the reserved copy (`LREM` + `RPUSH`, which touch only
the reserved list); `done r` = returned `r`. -/
inductive PopPC (α : Type) where
  | start
  | cleanup (j : RJob α)
  | done (res : Option (RJob α))
deriving DecidableEq, Repr

/-- One atomic step of a `RedisQueue.pop` caller against the shared Redis
state (Redis executes each command atomically; `RPOPLPUSH` is the single
indivisible claim). -/
def popStep {α : Type} [DecidableEq α] (g : RedisState α) (now : Nat) :
    PopPC α → RedisState α × PopPC α
  | .start =>
    let g1 := redisMigrate true g now
    match g1.ready.getLast? with
    | none => (g1, .done none)
    | some j =>
      ({ g1 with ready := g1.ready.dropLast, reserved := j :: g1.reserved },
       .cleanup j)
  | .cleanup j =>
    let j' : RJob α := { j with attempts := j.attempts + 1 }
    ({ g with reserved := lrem1 g.reserved j ++ [j'] }, .done (some j'))
  | .done r => (g, .done r)

/-- Interleaved execution of two concurrent `RedisQueue.pop` callers under a
schedule: `true` steps the first caller, `false` the second. -/
def runSched {α : Type} [DecidableEq α] (now : Nat) :
    RedisState α → PopPC α → PopPC α → List Bool →
    RedisState α × PopPC α × PopPC α
  | g, a, b, [] => (g, a, b)
  | g, a, b, true :: s =>
    let p := popStep g now a
    runSched now p.1 p.2 b s
  | g, a, b, false :: s =>
    let p := popStep g now b
    runSched now p.1 a p.2 s

/-- Entry as rewritten by a successful claim: attempts bumped by one. -/
def bump {α : Type} (e : RJob α) : RJob α :=
  ⟨e.id, e.payload, e.attempts + 1⟩

/-- Caller that has claimed entry `e`: either still rewriting the reserved
copy or finished returning the bumped record. -/
def isWinner {α : Type} (e : RJob α) (c : PopPC α) : Prop :=
  c = .cleanup e ∨ c = .done (some (bump e))

/-- Caller that has not claimed: not yet at its `RPOPLPUSH`, or finished
empty-handed. -/
def isLoser {α : Type} (c : PopPC α) : Prop :=
  c = .start ∨ c = .done none

/-- Invariant of the two-caller race for a single ready entry `e`: either
nobody has reached the `RPOPLPUSH` yet and the entry is still the whole
ready list, or the ready list is empty and exactly one caller holds the
entry. -/
def raceInv {α : Type} (e : RJob α) (g : RedisState α) (a b : PopPC α) :
    Prop :=
  (a = .start ∧ b = .start ∧ g.ready = [e] ∧ g.delayed = []) ∨
  (g.ready = [] ∧ g.delayed = [] ∧
    ((isWinner e a ∧ isLoser b) ∨ (isWinner e b ∧ isLoser a)))

lemma length_filter_partition {β : Type} (p p1 p2 : β → Bool)
    (h : ∀ x, (p x = true ↔ (p1 x = true ∨ p2 x = true)) ∧
      ¬ (p1 x = true ∧ p2 x = true)) :
    ∀ l : List β, (l.filter p).length = (l.filter p1).length + (l.filter p2).length := by
  intro l
  induction l with
  | nil => rfl
  | cons a l ih =>
    rcases hp1 : p1 a with _ | _
    · rcases hp2 : p2 a with _ | _
      · have hp : p a = false := by
          rcases hp : p a with _ | _
          · rfl
          · rcases ((h a).1.mp hp) with h' | h'
            · rw [hp1] at h'; exact absurd h' (by simp)
            · rw [hp2] at h'; exact absurd h' (by simp)
        rw [List.filter_cons_of_neg (by simp [hp]),
          List.filter_cons_of_neg (by simp [hp1]),
          List.filter_cons_of_neg (by simp [hp2])]
        exact ih
      · have hp : p a = true := (h a).1.mpr (Or.inr hp2)
        rw [List.filter_cons_of_pos hp, List.filter_cons_of_neg (by simp [hp1]),
          List.filter_cons_of_pos hp2]
        simp only [List.length_cons]
        omega
    · have hp : p a = true := (h a).1.mpr (Or.inl hp1)
      have hp2 : p2 a = false := by
        rcases hq : p2 a with _ | _
        · rfl
        · exact absurd ⟨hp1, hq⟩ (h a).2
      rw [List.filter_cons_of_pos hp, List.filter_cons_of_pos hp1,
        List.filter_cons_of_neg (by simp [hp2])]
      simp only [List.length_cons]
      omega

lemma redisMigrate_of_delayed_nil {α : Type} (g : RedisState α) (now : Nat)
    (h : g.delayed = []) : redisMigrate true g now = g := by
  cases g with
  | mk ready delayed reserved =>
    simp only at h
    subst h
    simp [redisMigrate, sortByScore]

/-- C8: deserializing the serialized envelope reproduces the whole job (in
particular every field of the `data` mapping), and an envelope missing the
four policy fields restores them to the defaults 3, 60, 0, `"default"`. -/
theorem c8_serialize_round_trip :
    (∀ j : MJob, unserialize (serialize j) = j) ∧
    (∀ (k : String) (d : List (String × JVal)),
      unserialize ⟨k, d, none, none, none, none⟩ = ⟨k, d, 3, 60, 0, "default"⟩) := by
  constructor
  · intro j; cases j; rfl
  · intro k d; rfl

/-- C10: on the key-value driver with the backend disabled, `release` and
`delete` return normally with the state untouched, while `push` raises a
runtime error — so the three mutating operations do not fail uniformly. -/
theorem c10_disabled_ops_not_uniform {α : Type} [DecidableEq α]
    (st : RedisState α) (jobId id : String) (p : α) (delay now : Nat) :
    redisRelease false st jobId delay now = st ∧
    redisDelete false st jobId = st ∧
    redisPush false st id p delay now =
      .error "Redis is disabled. Enable it to use RedisQueue." :=
  ⟨rfl, rfl, rfl⟩

theorem c10_witness :
    redisRelease false (⟨[], [], [⟨"default:1", "a", 1⟩]⟩ : RedisState String)
        "default:1" 0 0 = ⟨[], [], [⟨"default:1", "a", 1⟩]⟩ ∧
    redisDelete false (⟨[], [], [⟨"default:1", "a", 1⟩]⟩ : RedisState String)
        "default:1" = ⟨[], [], [⟨"default:1", "a", 1⟩]⟩ ∧
    redisPush false (⟨[], [], [⟨"default:1", "a", 1⟩]⟩ : RedisState String)
        "default:2" "b" 0 0 =
      .error "Redis is disabled. Enable it to use RedisQueue." :=
  c10_disabled_ops_not_uniform
    (⟨[], [], [⟨"default:1", "a", 1⟩]⟩ : RedisState String)
    "default:1" "default:2" "b" 0 0

/-- C3 counterexample: a job with `timeout = 30` run by a worker configured
with `timeout = 120` gets deadline 30 (`job.timeout or self.timeout`), not
the worker's 120 as the claim states. -/
theorem c3_counterexample :
    workerDeadline 120 ⟨"app.jobs.ExampleEmailJob", [], 3, 30, 0, "default"⟩ = 30 ∧
    (30 : Nat) ≠ 120 :=
  ⟨rfl, by decide⟩

/-- C3 amended: the deadline is the job's own timeout whenever it is
non-zero — the worker-level timeout applies only when the job's timeout is
zero — and with a non-zero job timeout the execution outcome is independent
of the worker's timeout setting. -/
theorem c3_effective_timeout (j : MJob) (wt wt' duration : Nat)
    (failure : Option String) :
    (j.timeout ≠ 0 → workerDeadline wt j = j.timeout) ∧
    (j.timeout = 0 → workerDeadline wt j = wt) ∧
    (j.timeout ≠ 0 →
      runHandler duration (workerDeadline wt j) failure =
        runHandler duration (workerDeadline wt' j) failure) := by
  refine ⟨fun h => ?_, fun h => ?_, fun h => ?_⟩ <;>
    simp [workerDeadline, h]

theorem c3_witness :
    workerDeadline 120 ⟨"app.jobs.ExampleEmailJob", [], 3, 30, 0, "default"⟩ = 30 ∧
    runHandler 60
        (workerDeadline 120 ⟨"app.jobs.ExampleEmailJob", [], 3, 30, 0, "default"⟩)
        none =
      runHandler 60
        (workerDeadline 999 ⟨"app.jobs.ExampleEmailJob", [], 3, 30, 0, "default"⟩)
        none := by
  have h := c3_effective_timeout
    ⟨"app.jobs.ExampleEmailJob", [], 3, 30, 0, "default"⟩ 120 999 60 none
  exact ⟨h.1 (by decide), h.2.2 (by decide)⟩

/-- C6 counterexample: with the backend disabled, `pop` reports the
no-job-available result `none` on both drivers instead of propagating an
error (`push`, by contrast, raises). -/
theorem c6_counterexample :
    redisPop false (⟨[], [], []⟩ : RedisState String) 0 = (⟨[], [], []⟩, none) ∧
    dbPop false ([] : List (DRow String)) "default" 0 = ([], none) ∧
    redisPush false (⟨[], [], []⟩ : RedisState String) "default:1" "p" 0 0 =
      .error "Redis is disabled. Enable it to use RedisQueue." :=
  ⟨rfl, rfl, rfl⟩

/-- C6 amended: when the backend is disabled, `push` propagates a runtime
error on both drivers, but `pop` silently returns the no-job result `none`
with the state unchanged. -/
theorem c6_disabled_pop_returns_none {α : Type} [DecidableEq α]
    (st : RedisState α) (rows : List (DRow α)) (q id : String) (p : α)
    (newId delay now : Nat) :
    redisPop false st now = (st, none) ∧
    dbPop false rows q now = (rows, none) ∧
    redisPush false st id p delay now =
      .error "Redis is disabled. Enable it to use RedisQueue." ∧
    dbPush false rows newId p q delay now =
      .error "MySQL is disabled. Enable it to use DatabaseQueue." :=
  ⟨rfl, rfl, rfl, rfl⟩

theorem c6_witness :
    redisPop false (⟨[⟨"default:1", "a", 0⟩], [], []⟩ : RedisState String) 7 =
      (⟨[⟨"default:1", "a", 0⟩], [], []⟩, none) ∧
    dbPop false [(⟨1, "default", "a", 0, none, 0⟩ : DRow String)] "default" 7 =
      ([⟨1, "default", "a", 0, none, 0⟩], none) := by
  have h := c6_disabled_pop_returns_none
    (⟨[⟨"default:1", "a", 0⟩], [], []⟩ : RedisState String)
    [(⟨1, "default", "a", 0, none, 0⟩ : DRow String)]
    "default" "default:2" "b" 2 0 7
  exact ⟨h.1, h.2.1⟩

/-- C1: on the key-value driver, two non-delayed pushes of `"a"` then `"b"`
followed by one pop return `"b"`, the newest entry, not the oldest: `push`
appends to the ready list's tail (`RPUSH`) and `pop` claims from the tail
(`RPOPLPUSH`), giving LIFO order, contrary to the FIFO order stated by the
claim and by the code's own comments. -/
theorem c1_redis_pop_is_lifo :
    redisPush true (⟨[], [], []⟩ : RedisState String) "default:1" "a" 0 0 =
      .ok ⟨[⟨"default:1", "a", 0⟩], [], []⟩ ∧
    redisPush true (⟨[⟨"default:1", "a", 0⟩], [], []⟩ : RedisState String)
        "default:2" "b" 0 0 =
      .ok ⟨[⟨"default:1", "a", 0⟩, ⟨"default:2", "b", 0⟩], [], []⟩ ∧
    (redisPop true
        (⟨[⟨"default:1", "a", 0⟩, ⟨"default:2", "b", 0⟩], [], []⟩ :
          RedisState String) 0).2 =
      some ⟨"default:2", "b", 1⟩ ∧
    (some (⟨"default:2", "b", 1⟩ : RJob String) ≠
      some (⟨"default:1", "a", 1⟩ : RJob String)) :=
  ⟨rfl, rfl, rfl, by decide⟩

/-- C7 counterexample: a queue holding a single delayed entry whose
`available_at` (100) has not yet passed reports size 1 on both drivers, not
the 0 the claim requires: the key-value `size` adds the delayed set's
cardinality, and the relational `size` has no `available_at` filter. -/
theorem c7_counterexample :
    redisSize true
        (⟨[], [(⟨"default:1", "a", 0⟩, 100)], []⟩ : RedisState String) = 1 ∧
    dbSize true [(⟨1, "default", "a", 0, none, 100⟩ : DRow String)]
        "default" = 1 ∧
    (1 : Nat) ≠ 0 :=
  ⟨rfl, rfl, by decide⟩

/-- C7 amended: `size` counts all non-reserved entries — ready entries plus
delayed entries whether or not their `available_at` has passed — and
excludes reserved entries, so it is positive whenever a ready entry
exists. -/
theorem c7_size_counts_nonreserved {α : Type} (st : RedisState α)
    (rows : List (DRow α)) (q : String) (now : Nat) :
    redisSize true st = st.ready.length + st.delayed.length ∧
    (∀ rsv, redisSize true { st with reserved := rsv } = redisSize true st) ∧
    (st.ready ≠ [] → 0 < redisSize true st) ∧
    dbSize true rows q =
      (rows.filter (isReady q now)).length +
      (rows.filter (fun r =>
        decide (r.queue = q ∧ r.reserved_at = none ∧ now < r.available_at))).length ∧
    (rows.filter (isReady q now) ≠ [] → 0 < dbSize true rows q) := by
  refine ⟨rfl, fun rsv => rfl, fun h => ?_, ?_, fun h => ?_⟩
  · have : st.ready.length ≠ 0 := fun h0 => h (List.length_eq_zero.mp h0)
    simp only [redisSize, Bool.not_true, Bool.false_eq_true, if_false]
    omega
  · simp only [dbSize, Bool.not_true, Bool.false_eq_true, if_false]
    refine length_filter_partition _ _ _ (fun x => ?_) rows
    constructor
    · simp only [isReady, decide_eq_true_eq]
      constructor
      · rintro ⟨ha, hb⟩
        rcases le_or_lt x.available_at now with hle | hlt
        · exact Or.inl ⟨ha, hb, hle⟩
        · exact Or.inr ⟨ha, hb, hlt⟩
      · rintro (⟨ha, hb, -⟩ | ⟨ha, hb, -⟩) <;> exact ⟨ha, hb⟩
    · rintro ⟨h1, h2⟩
      simp only [isReady, decide_eq_true_eq] at h1 h2
      exact absurd h2.2.2 (Nat.not_lt.mpr h1.2.2)
  · obtain ⟨r, hr⟩ := List.exists_mem_of_ne_nil _ h
    have hm := List.mem_filter.mp hr
    have hready : r.queue = q ∧ r.reserved_at = none ∧ r.available_at ≤ now :=
      of_decide_eq_true hm.2
    simp only [dbSize, Bool.not_true, Bool.false_eq_true, if_false]
    have : r ∈ rows.filter (fun x => decide (x.queue = q ∧ x.reserved_at = none)) :=
      List.mem_filter.mpr ⟨hm.1, decide_eq_true ⟨hready.1, hready.2.1⟩⟩
    exact List.length_pos.mpr (List.ne_nil_of_mem this)

theorem c7_witness :
    redisSize true
        (⟨[⟨"default:1", "a", 0⟩], [(⟨"default:2", "b", 0⟩, 100)],
          [⟨"default:3", "c", 1⟩]⟩ : RedisState String) = 2 ∧
    0 < dbSize true
        [(⟨1, "default", "a", 0, none, 0⟩ : DRow String),
         ⟨2, "default", "b", 2, some 5, 0⟩] "default" := by
  have h := c7_size_counts_nonreserved
    (⟨[⟨"default:1", "a", 0⟩], [(⟨"default:2", "b", 0⟩, 100)],
      [⟨"default:3", "c", 1⟩]⟩ : RedisState String)
    [(⟨1, "default", "a", 0, none, 0⟩ : DRow String),
     ⟨2, "default", "b", 2, some 5, 0⟩] "default" 0
  exact ⟨h.1, h.2.2.2.2 (by decide)⟩

lemma pickMin_mem {α : Type} :
    ∀ (l : List (DRow α)) (r : DRow α), pickMin l = some r → r ∈ l := by
  intro l
  induction l with
  | nil => intro r h; exact absurd h (by simp [pickMin])
  | cons a l ih =>
    intro r h
    simp only [pickMin] at h
    cases hm : pickMin l with
    | none =>
      simp only [hm] at h
      injection h with h
      subst h
      exact List.mem_cons_self _ _
    | some m =>
      simp only [hm] at h
      by_cases hle : a.id ≤ m.id
      · rw [if_pos hle] at h
        injection h with h
        subst h
        exact List.mem_cons_self _ _
      · rw [if_neg hle] at h
        injection h with h
        subst h
        exact List.mem_cons_of_mem _ (ih _ hm)

lemma redisPop_true_eq {α : Type} [DecidableEq α] (st : RedisState α)
    (now : Nat) :
    redisPop true st now =
      match (redisMigrate true st now).ready.getLast? with
      | none => (redisMigrate true st now, none)
      | some j =>
        ({ redisMigrate true st now with
            ready := (redisMigrate true st now).ready.dropLast
            reserved := lrem1 (j :: (redisMigrate true st now).reserved) j ++
              [{ j with attempts := j.attempts + 1 }] },
         some { j with attempts := j.attempts + 1 }) := rfl

lemma dbPop_true_eq {α : Type} (rows : List (DRow α)) (q : String)
    (now : Nat) :
    dbPop true rows q now =
      match pickMin (rows.filter (isReady q now)) with
      | none => (rows, none)
      | some job =>
        (rows.map (fun r =>
          if r.id = job.id then
            { r with reserved_at := some now, attempts := r.attempts + 1 }
          else r),
         some (job.id, job.payload, job.attempts + 1)) := rfl

lemma redisRelease_true_eq {α : Type} [DecidableEq α] (st : RedisState α)
    (jobId : String) (delay now : Nat) :
    redisRelease true st jobId delay now =
      match findById st.reserved jobId with
      | none => st
      | some j =>
        if delay > 0 then
          { st with reserved := lrem1 st.reserved j
                    delayed := st.delayed ++ [(j, now + delay)] }
        else
          { st with reserved := lrem1 st.reserved j
                    ready := st.ready ++ [j] } := rfl

lemma lrem1_subset {α : Type} [DecidableEq α] :
    ∀ (l : List (RJob α)) (j x : RJob α), x ∈ lrem1 l j → x ∈ l := by
  intro l
  induction l with
  | nil => intro j x h; exact absurd h (by simp [lrem1])
  | cons a l ih =>
    intro j x h
    simp only [lrem1] at h
    by_cases ha : a = j
    · rw [if_pos ha] at h
      exact List.mem_cons_of_mem _ h
    · rw [if_neg ha] at h
      rcases List.mem_cons.mp h with h | h
      · subst h
        exact List.mem_cons_self _ _
      · exact List.mem_cons_of_mem _ (ih j x h)

lemma redisPush_true_eq {α : Type} (st : RedisState α) (id : String) (p : α)
    (delay now : Nat) :
    redisPush true st id p delay now =
      if delay > 0 then
        .ok { st with delayed := st.delayed ++ [(⟨id, p, 0⟩, now + delay)] }
      else
        .ok { st with ready := st.ready ++ [⟨id, p, 0⟩] } := rfl

lemma redisDelete_true_eq {α : Type} [DecidableEq α] (st : RedisState α)
    (jobId : String) :
    redisDelete true st jobId =
      match findById st.reserved jobId with
      | none => st
      | some j => { st with reserved := lrem1 st.reserved j } := rfl

/-- C4: a pop that returns an entry increments its attempts counter by
exactly 1 over the stored value on both drivers (and stores the incremented
value), while no other operation changes any attempts counter on either
driver: push (delayed or not) creates a fresh entry at attempts 0 and
leaves the existing entries untouched, release re-inserts the entry with
its attempts untouched and delete only removes entries, never rewriting
one. -/
theorem c4_attempts_increment {α : Type} [DecidableEq α] :
    (∀ (st st' : RedisState α) (now : Nat) (j : RJob α),
       redisPop true st now = (st', some j) →
       ∃ j₀, (redisMigrate true st now).ready.getLast? = some j₀ ∧
         j.id = j₀.id ∧ j.payload = j₀.payload ∧
         j.attempts = j₀.attempts + 1 ∧ j ∈ st'.reserved) ∧
    (∀ (st : RedisState α) (jobId : String) (delay now : Nat) (j₀ : RJob α),
       findById st.reserved jobId = some j₀ →
       (redisRelease true st jobId delay now).ready =
         st.ready ++ (if 0 < delay then [] else [j₀]) ∧
       (redisRelease true st jobId delay now).delayed =
         st.delayed ++ (if 0 < delay then [(j₀, now + delay)] else [])) ∧
    (∀ (st : RedisState α) (id : String) (p : α) (now : Nat),
       redisPush true st id p 0 now =
         .ok { st with ready := st.ready ++ [⟨id, p, 0⟩] }) ∧
    (∀ (rows rows' : List (DRow α)) (q : String) (now : Nat) (i : Nat)
       (p : α) (a : Nat),
       dbPop true rows q now = (rows', some (i, p, a)) →
       ∃ r, r ∈ rows ∧ isReady q now r = true ∧ i = r.id ∧ p = r.payload ∧
         a = r.attempts + 1 ∧
         rows' = rows.map (fun x =>
           if x.id = r.id then
             { x with reserved_at := some now, attempts := x.attempts + 1 }
           else x)) ∧
    (∀ (rows : List (DRow α)) (jobId : Nat) (q : String) (delay now : Nat),
       (dbRelease true rows jobId q delay now).map
           (fun r => (r.id, r.payload, r.attempts)) =
         rows.map (fun r => (r.id, r.payload, r.attempts))) ∧
    (∀ (rows : List (DRow α)) (jobId : Nat) (q : String) (r : DRow α),
       r ∈ dbDelete true rows jobId q → r ∈ rows) ∧
    (∀ (st : RedisState α) (id : String) (p : α) (delay now : Nat),
       0 < delay →
       redisPush true st id p delay now =
         .ok { st with delayed := st.delayed ++ [(⟨id, p, 0⟩, now + delay)] }) ∧
    (∀ (rows : List (DRow α)) (newId : Nat) (p : α) (q : String)
       (delay now : Nat),
       dbPush true rows newId p q delay now =
         .ok (rows ++ [⟨newId, q, p, 0, none, now + delay⟩])) ∧
    (∀ (st : RedisState α) (jobId : String),
       (redisDelete true st jobId).ready = st.ready ∧
       (redisDelete true st jobId).delayed = st.delayed ∧
       ∀ j, j ∈ (redisDelete true st jobId).reserved → j ∈ st.reserved) := by
  refine ⟨?_, ?_, ?_, ?_, ?_, ?_, ?_, ?_, ?_⟩
  · intro st st' now j h
    rw [redisPop_true_eq] at h
    split at h
    · simp at h
    · next j₀ hL =>
      injection h with h1 h2
      injection h2 with h2
      refine ⟨j₀, hL, ?_, ?_, ?_, ?_⟩
      · rw [← h2]
      · rw [← h2]
      · rw [← h2]
      · rw [← h1, ← h2]
        simp
  · intro st jobId delay now j₀ hF
    simp only [redisRelease_true_eq, hF]
    by_cases hd : 0 < delay
    · simp [hd]
    · simp [hd]
  · intro st id p now
    rfl
  · intro rows rows' q now i p a h
    rw [dbPop_true_eq] at h
    split at h
    · simp at h
    · next job hP =>
      injection h with h1 h2
      injection h2 with h2
      have hmem := List.mem_filter.mp (pickMin_mem _ _ hP)
      injection h2 with hi h2
      injection h2 with hp ha
      exact ⟨job, hmem.1, hmem.2, hi.symm, hp.symm, ha.symm, h1.symm⟩
  · intro rows jobId q delay now
    show (rows.map _).map _ = _
    rw [List.map_map]
    refine List.map_congr_left (fun x _ => ?_)
    by_cases h : x.id = jobId ∧ x.queue = q <;> simp [h]
  · intro rows jobId q r h
    exact (List.mem_filter.mp h).1
  · intro st id p delay now h
    rw [redisPush_true_eq, if_pos h]
  · intro rows newId p q delay now
    rfl
  · intro st jobId
    cases hF : findById st.reserved jobId with
    | none =>
      simp only [redisDelete_true_eq, hF]
      exact ⟨trivial, trivial, fun j hj => hj⟩
    | some j0 =>
      simp only [redisDelete_true_eq, hF]
      exact ⟨trivial, trivial, fun j hj => lrem1_subset _ _ _ hj⟩

theorem c4_witness :
    (⟨"default:1", "a", 1⟩ : RJob String) ∈
      ((redisPop true (⟨[⟨"default:1", "a", 0⟩], [], []⟩ : RedisState String)
        0).1).reserved ∧
    (dbPop true [(⟨1, "default", "a", 4, none, 0⟩ : DRow String)]
      "default" 0).2 = some (1, "a", 5) ∧
    redisPush true (⟨[], [], []⟩ : RedisState String) "default:9" "z" 5 10 =
      .ok ⟨[], [(⟨"default:9", "z", 0⟩, 15)], []⟩ ∧
    (⟨"default:2", "b", 3⟩ : RJob String) ∈
      (⟨[], [], [⟨"default:1", "a", 1⟩, ⟨"default:2", "b", 3⟩]⟩ :
        RedisState String).reserved := by
  obtain ⟨j₀, -, -, -, -, h5⟩ :=
    (c4_attempts_increment (α := String)).1
      (⟨[⟨"default:1", "a", 0⟩], [], []⟩ : RedisState String) _ 0
      ⟨"default:1", "a", 1⟩ rfl
  obtain ⟨r, -, -, hi, hp, ha, -⟩ :=
    (c4_attempts_increment (α := String)).2.2.2.1
      [(⟨1, "default", "a", 4, none, 0⟩ : DRow String)] _ "default" 0 1 "a" 5
      rfl
  have hpush := (c4_attempts_increment (α := String)).2.2.2.2.2.2.1
    (⟨[], [], []⟩ : RedisState String) "default:9" "z" 5 10 (by decide)
  have hdel := ((c4_attempts_increment (α := String)).2.2.2.2.2.2.2.2
    (⟨[], [], [⟨"default:1", "a", 1⟩, ⟨"default:2", "b", 3⟩]⟩ :
      RedisState String) "default:1").2.2
    ⟨"default:2", "b", 3⟩ (by decide)
  exact ⟨h5, rfl, hpush, hdel⟩

/-- C9: release clears the reservation and sets `available_at = now + delay`
and changes nothing else. Relational driver: the updated table has the same
length, every row keeps its id, queue, payload and attempts, the targeted
row gets `reserved_at = NULL` and `available_at = now + delay`, and every
other row is untouched. Key-value driver: the reserved entry with the given
id is moved verbatim (payload and attempts intact) to the ready list when
`delay = 0` or to the delayed set with score `now + delay` when
`delay > 0`, and the other two structures are untouched. -/
theorem c9_release_frame {α : Type} [DecidableEq α] :
    (∀ (rows : List (DRow α)) (jobId : Nat) (q : String) (delay now : Nat),
       (dbRelease true rows jobId q delay now).length = rows.length ∧
       ∀ (k : Nat) (h : k < rows.length)
         (h' : k < (dbRelease true rows jobId q delay now).length),
         ((dbRelease true rows jobId q delay now).get ⟨k, h'⟩).id =
           (rows.get ⟨k, h⟩).id ∧
         ((dbRelease true rows jobId q delay now).get ⟨k, h'⟩).queue =
           (rows.get ⟨k, h⟩).queue ∧
         ((dbRelease true rows jobId q delay now).get ⟨k, h'⟩).payload =
           (rows.get ⟨k, h⟩).payload ∧
         ((dbRelease true rows jobId q delay now).get ⟨k, h'⟩).attempts =
           (rows.get ⟨k, h⟩).attempts ∧
         ((rows.get ⟨k, h⟩).id = jobId ∧ (rows.get ⟨k, h⟩).queue = q →
           ((dbRelease true rows jobId q delay now).get ⟨k, h'⟩).reserved_at =
             none ∧
           ((dbRelease true rows jobId q delay now).get ⟨k, h'⟩).available_at =
             now + delay) ∧
         (¬ ((rows.get ⟨k, h⟩).id = jobId ∧ (rows.get ⟨k, h⟩).queue = q) →
           (dbRelease true rows jobId q delay now).get ⟨k, h'⟩ =
             rows.get ⟨k, h⟩)) ∧
    (∀ (st : RedisState α) (jobId : String) (delay now : Nat) (j₀ : RJob α),
       findById st.reserved jobId = some j₀ →
       (redisRelease true st jobId delay now).reserved = lrem1 st.reserved j₀ ∧
       (delay = 0 →
         (redisRelease true st jobId delay now).ready = st.ready ++ [j₀] ∧
         (redisRelease true st jobId delay now).delayed = st.delayed) ∧
       (0 < delay →
         (redisRelease true st jobId delay now).delayed =
           st.delayed ++ [(j₀, now + delay)] ∧
         (redisRelease true st jobId delay now).ready = st.ready)) := by
  constructor
  · intro rows jobId q delay now
    constructor
    · show (rows.map _).length = rows.length
      exact List.length_map _ _
    · intro k h h'
      have hget : (dbRelease true rows jobId q delay now).get ⟨k, h'⟩ =
          (fun r => if r.id = jobId ∧ r.queue = q then
            { r with reserved_at := none, available_at := now + delay }
          else r) (rows.get ⟨k, h⟩) := by
        show ((rows.map _).get ⟨k, h'⟩) = _
        simp only [List.get_eq_getElem, List.getElem_map]
      rw [hget]
      dsimp only
      by_cases hc : (rows.get ⟨k, h⟩).id = jobId ∧ (rows.get ⟨k, h⟩).queue = q
      · rw [if_pos hc]
        exact ⟨rfl, rfl, rfl, rfl, fun _ => ⟨rfl, rfl⟩, fun hn => absurd hc hn⟩
      · rw [if_neg hc]
        exact ⟨rfl, rfl, rfl, rfl, fun hcon => absurd hcon hc, fun _ => rfl⟩
  · intro st jobId delay now j₀ hF
    simp only [redisRelease_true_eq, hF]
    by_cases hd : 0 < delay
    · have : ¬ delay = 0 := by omega
      simp [hd, this]
    · have : delay = 0 := by omega
      simp [hd, this]

theorem c9_witness :
    ((dbRelease true
        [(⟨1, "default", "a", 3, some 4, 2⟩ : DRow String),
         ⟨2, "default", "b", 0, none, 0⟩] 1 "default" 6 10).get
      ⟨0, by decide⟩).reserved_at = none ∧
    ((dbRelease true
        [(⟨1, "default", "a", 3, some 4, 2⟩ : DRow String),
         ⟨2, "default", "b", 0, none, 0⟩] 1 "default" 6 10).get
      ⟨0, by decide⟩).available_at = 16 ∧
    ((dbRelease true
        [(⟨1, "default", "a", 3, some 4, 2⟩ : DRow String),
         ⟨2, "default", "b", 0, none, 0⟩] 1 "default" 6 10).get
      ⟨0, by decide⟩).attempts = 3 ∧
    (redisRelease true
        (⟨[], [], [⟨"default:1", "a", 2⟩]⟩ : RedisState String)
        "default:1" 0 5).ready = [⟨"default:1", "a", 2⟩] := by
  obtain ⟨-, hpt⟩ := (c9_release_frame (α := String)).1
    [(⟨1, "default", "a", 3, some 4, 2⟩ : DRow String),
     ⟨2, "default", "b", 0, none, 0⟩] 1 "default" 6 10
  obtain ⟨-, -, -, hat, hres, -⟩ := hpt 0 (by decide) (by decide)
  obtain ⟨hrs, hav⟩ := hres ⟨rfl, rfl⟩
  have hr := (c9_release_frame (α := String)).2
    (⟨[], [], [⟨"default:1", "a", 2⟩]⟩ : RedisState String) "default:1" 0 5
    ⟨"default:1", "a", 2⟩ rfl
  exact ⟨hrs, hav, hat, (hr.2.1 rfl).1⟩

lemma popStep_start_of_ready_nil {α : Type} [DecidableEq α]
    (g : RedisState α) (now : Nat) (hr : g.ready = []) (hd : g.delayed = []) :
    popStep g now .start = (g, .done none) := by
  have hm := redisMigrate_of_delayed_nil g now hd
  simp [popStep, hm, hr]

lemma popStep_start_claim {α : Type} [DecidableEq α] (g : RedisState α)
    (now : Nat) (e : RJob α) (hr : g.ready = [e]) (hd : g.delayed = []) :
    popStep g now .start =
      ({ g with ready := [], reserved := e :: g.reserved }, .cleanup e) := by
  have hm := redisMigrate_of_delayed_nil g now hd
  simp [popStep, hm, hr]

lemma popStep_cleanup_eq {α : Type} [DecidableEq α] (g : RedisState α)
    (now : Nat) (j : RJob α) :
    popStep g now (.cleanup j) =
      ({ g with reserved := lrem1 g.reserved j ++
          [{ j with attempts := j.attempts + 1 }] },
       .done (some { j with attempts := j.attempts + 1 })) := rfl

lemma popStep_done_eq {α : Type} [DecidableEq α] (g : RedisState α)
    (now : Nat) (r : Option (RJob α)) :
    popStep g now (.done r) = (g, .done r) := rfl

lemma raceInv_step_a {α : Type} [DecidableEq α] (e : RJob α) (now : Nat)
    (g : RedisState α) (a b : PopPC α) (h : raceInv e g a b) :
    raceInv e (popStep g now a).1 (popStep g now a).2 b := by
  rcases h with ⟨ha, hb, hr, hd⟩ | ⟨hr, hd, hcase⟩
  · subst ha
    rw [popStep_start_claim g now e hr hd]
    exact Or.inr ⟨rfl, hd, Or.inl ⟨Or.inl rfl, Or.inl hb⟩⟩
  · rcases hcase with ⟨hw, hl⟩ | ⟨hw, hl⟩
    · rcases hw with ha | ha
      · subst ha
        rw [popStep_cleanup_eq]
        exact Or.inr ⟨hr, hd, Or.inl ⟨Or.inr rfl, hl⟩⟩
      · subst ha
        rw [popStep_done_eq]
        exact Or.inr ⟨hr, hd, Or.inl ⟨Or.inr rfl, hl⟩⟩
    · rcases hl with ha | ha
      · subst ha
        rw [popStep_start_of_ready_nil g now hr hd]
        exact Or.inr ⟨hr, hd, Or.inr ⟨hw, Or.inr rfl⟩⟩
      · subst ha
        rw [popStep_done_eq]
        exact Or.inr ⟨hr, hd, Or.inr ⟨hw, Or.inr rfl⟩⟩

lemma raceInv_step_b {α : Type} [DecidableEq α] (e : RJob α) (now : Nat)
    (g : RedisState α) (a b : PopPC α) (h : raceInv e g a b) :
    raceInv e (popStep g now b).1 a (popStep g now b).2 := by
  rcases h with ⟨ha, hb, hr, hd⟩ | ⟨hr, hd, hcase⟩
  · subst hb
    rw [popStep_start_claim g now e hr hd]
    exact Or.inr ⟨rfl, hd, Or.inr ⟨Or.inl rfl, Or.inl ha⟩⟩
  · rcases hcase with ⟨hw, hl⟩ | ⟨hw, hl⟩
    · rcases hl with hbv | hbv
      · subst hbv
        rw [popStep_start_of_ready_nil g now hr hd]
        exact Or.inr ⟨hr, hd, Or.inl ⟨hw, Or.inr rfl⟩⟩
      · subst hbv
        rw [popStep_done_eq]
        exact Or.inr ⟨hr, hd, Or.inl ⟨hw, Or.inr rfl⟩⟩
    · rcases hw with hbv | hbv
      · subst hbv
        rw [popStep_cleanup_eq]
        exact Or.inr ⟨hr, hd, Or.inr ⟨Or.inr rfl, hl⟩⟩
      · subst hbv
        rw [popStep_done_eq]
        exact Or.inr ⟨hr, hd, Or.inr ⟨Or.inr rfl, hl⟩⟩

lemma runSched_raceInv {α : Type} [DecidableEq α] (e : RJob α) (now : Nat) :
    ∀ (sched : List Bool) (g : RedisState α) (a b : PopPC α),
      raceInv e g a b →
      raceInv e (runSched now g a b sched).1 (runSched now g a b sched).2.1
        (runSched now g a b sched).2.2 := by
  intro sched
  induction sched with
  | nil => intro g a b h; exact h
  | cons c s ih =>
    intro g a b h
    cases c
    · exact ih _ _ _ (raceInv_step_b e now g a b h)
    · exact ih _ _ _ (raceInv_step_a e now g a b h)

/-- C5: pop never hands the same entry to two concurrent callers. Key-value
driver: for every interleaving of two concurrent pop executions (each Redis
command atomic, `RPOPLPUSH` being the single claim step) starting from one
ready entry, exactly one caller returns the entry (with attempts bumped) and
the other returns none. Relational driver: the reserving transaction is
atomic under the row lock with `SKIP LOCKED`, so with exactly one ready row
the first pop in any serialization returns it and the second returns
none. -/
theorem c5_mutual_exclusion {α : Type} [DecidableEq α] :
    (∀ (e : RJob α) (sched : List Bool) (g : RedisState α)
       (ra rb : Option (RJob α)),
       runSched 0 ⟨[e], [], []⟩ .start .start sched = (g, .done ra, .done rb) →
       (ra = some (bump e) ∧ rb = none) ∨
       (ra = none ∧ rb = some (bump e))) ∧
    (∀ (rows : List (DRow α)) (q : String) (now : Nat) (r : DRow α),
       rows.filter (isReady q now) = [r] →
       (dbPop true rows q now).2 = some (r.id, r.payload, r.attempts + 1) ∧
       (dbPop true (dbPop true rows q now).1 q now).2 = none) := by
  constructor
  · intro e sched g ra rb h
    have hinv := runSched_raceInv e 0 sched ⟨[e], [], []⟩ .start .start
      (Or.inl ⟨rfl, rfl, rfl, rfl⟩)
    rw [h] at hinv
    rcases hinv with ⟨ha, -, -, -⟩ | ⟨-, -, hcase⟩
    · exact absurd ha (by simp)
    · rcases hcase with ⟨hw, hl⟩ | ⟨hw, hl⟩
      · rcases hw with hw | hw
        · exact absurd hw (by simp)
        · rcases hl with hl | hl
          · exact absurd hl (by simp)
          · injection hw with hw
            injection hl with hl
            exact Or.inl ⟨hw, hl⟩
      · rcases hw with hw | hw
        · exact absurd hw (by simp)
        · rcases hl with hl | hl
          · exact absurd hl (by simp)
          · injection hw with hw
            injection hl with hl
            exact Or.inr ⟨hl, hw⟩
  · intro rows q now r hfilter
    have h1 : dbPop true rows q now =
        (rows.map (fun x =>
          if x.id = r.id then
            { x with reserved_at := some now, attempts := x.attempts + 1 }
          else x),
         some (r.id, r.payload, r.attempts + 1)) := by
      rw [dbPop_true_eq, hfilter]
      simp [pickMin]
    have h2 : ((rows.map (fun x =>
        if x.id = r.id then
          { x with reserved_at := some now, attempts := x.attempts + 1 }
        else x)).filter (isReady q now)) = [] := by
      rw [List.filter_eq_nil_iff]
      intro x hx
      obtain ⟨y, hy, rfl⟩ := List.mem_map.mp hx
      by_cases hid : y.id = r.id
      · simp [isReady, hid]
      · rw [if_neg hid]
        intro hready
        have hmem : y ∈ rows.filter (isReady q now) :=
          List.mem_filter.mpr ⟨hy, hready⟩
        rw [hfilter] at hmem
        exact hid (by rw [List.mem_singleton.mp hmem])
    refine ⟨by rw [h1], ?_⟩
    rw [h1]
    rw [dbPop_true_eq, h2]
    rfl

theorem c5_witness :
    ((some (bump (⟨"default:1", "a", 0⟩ : RJob String)) =
        some (bump (⟨"default:1", "a", 0⟩ : RJob String)) ∧
      (none : Option (RJob String)) = none) ∨
     (some (bump (⟨"default:1", "a", 0⟩ : RJob String)) =
        (none : Option (RJob String)) ∧
      (none : Option (RJob String)) =
        some (bump (⟨"default:1", "a", 0⟩ : RJob String)))) ∧
    (dbPop true [(⟨1, "default", "a", 0, none, 0⟩ : DRow String)]
      "default" 0).2 = some (1, "a", 1) ∧
    (dbPop true
      (dbPop true [(⟨1, "default", "a", 0, none, 0⟩ : DRow String)]
        "default" 0).1 "default" 0).2 = none := by
  have hdb := (c5_mutual_exclusion (α := String)).2
    [(⟨1, "default", "a", 0, none, 0⟩ : DRow String)] "default" 0
    ⟨1, "default", "a", 0, none, 0⟩ rfl
  exact ⟨(c5_mutual_exclusion (α := String)).1 ⟨"default:1", "a", 0⟩
    [true, true, false] _ _ _ rfl, hdb.1, hdb.2⟩

/-- C2: for a job with `max_tries = 2`, an always-failing handler and no
worker-level override, starting from one ready entry holding the job's
serialized payload: the first cycle releases the entry back (reservation
cleared, `available_at = retry_after`, attempts preserved at 1, no failed
record); the second cycle — once the entry is available again — writes
exactly one Failed Job Record carrying the job's re-serialized payload
(equal to the original envelope by round-trip) and the failure text, and
deletes the entry from the live queue. -/
theorem c2_exhaustion_two_tries (job : MJob) (h2 : job.max_tries = 2)
    (wt t2 : Nat) (m1 m2 : String) (ht : job.retry_after ≤ t2) :
    runWorkerCycle none wt
        ⟨[⟨1, "default", serialize job, 0, none, 0⟩], []⟩ "default" 0 0
        (some m1) =
      ⟨[⟨1, "default", serialize job, 1, none, 0 + job.retry_after⟩], []⟩ ∧
    runWorkerCycle none wt
        ⟨[⟨1, "default", serialize job, 1, none, 0 + job.retry_after⟩], []⟩
        "default" t2 0 (some m2) =
      ⟨[], [⟨"database", "default", serialize job,
        "Exception: " ++ m2, t2⟩]⟩ := by
  obtain ⟨k, d, mt0, tmo, ra, qn⟩ := job
  simp only at h2 ht
  subst h2
  constructor
  · rfl
  · have hready2 : isReady "default" t2
        (⟨1, "default", serialize ⟨k, d, 2, tmo, ra, qn⟩, 1, none, 0 + ra⟩ :
          DRow Envelope) = true :=
      decide_eq_true ⟨rfl, rfl, by simpa using ht⟩
    have hfil2 : [(⟨1, "default", serialize ⟨k, d, 2, tmo, ra, qn⟩, 1, none,
          0 + ra⟩ : DRow Envelope)].filter (isReady "default" t2) =
        [⟨1, "default", serialize ⟨k, d, 2, tmo, ra, qn⟩, 1, none, 0 + ra⟩] := by
      rw [List.filter_cons_of_pos hready2]
      rfl
    have hpop2 : dbPop true
        [(⟨1, "default", serialize ⟨k, d, 2, tmo, ra, qn⟩, 1, none, 0 + ra⟩ :
          DRow Envelope)] "default" t2 =
        ([⟨1, "default", serialize ⟨k, d, 2, tmo, ra, qn⟩, 2, some t2, 0 + ra⟩],
         some (1, serialize ⟨k, d, 2, tmo, ra, qn⟩, 2)) := by
      rw [dbPop_true_eq, hfil2]
      rfl
    unfold runWorkerCycle
    rw [hpop2]
    rfl

theorem c2_witness :
    runWorkerCycle none 60
        ⟨[⟨1, "default",
          serialize ⟨"app.jobs.ExampleEmailJob", [("recipient", JVal.s "x")],
            2, 60, 5, "default"⟩, 0, none, 0⟩], []⟩
        "default" 0 0 (some "boom1") =
      ⟨[⟨1, "default",
        serialize ⟨"app.jobs.ExampleEmailJob", [("recipient", JVal.s "x")],
          2, 60, 5, "default"⟩, 1, none, 0 + 5⟩], []⟩ ∧
    runWorkerCycle none 60
        ⟨[⟨1, "default",
          serialize ⟨"app.jobs.ExampleEmailJob", [("recipient", JVal.s "x")],
            2, 60, 5, "default"⟩, 1, none, 0 + 5⟩], []⟩
        "default" 7 0 (some "boom2") =
      ⟨[], [⟨"database", "default",
        serialize ⟨"app.jobs.ExampleEmailJob", [("recipient", JVal.s "x")],
          2, 60, 5, "default"⟩, "Exception: " ++ "boom2", 7⟩]⟩ :=
  c2_exhaustion_two_tries
    ⟨"app.jobs.ExampleEmailJob", [("recipient", JVal.s "x")], 2, 60, 5,
      "default"⟩ rfl 60 7 "boom1" "boom2" (by decide)

end RouteMQ
